import Mathlib

/-
Verification of the type-erased callable container in src/func.hpp (namespace vx).

The development shallow-embeds the program:

* `Config` mirrors `vx::configuration::func` field by field (same defaults).
* A concrete callable type F is abstracted as a `Kind`: its sizeof/alignof,
  whether it is nothrow-move-constructible, copy/move-constructible, whether
  its call operator is noexcept, and its behavior.  Behavior is a function
  `run : Int -> Int -> Int × Int` taking the captured (mutable) state and the
  call argument to the new state and the returned value; this instantiates
  the signature R(Args...) at R = Int, Args = (Int).
* The storage union `memory_SBO` becomes `Cell`: it either holds a live
  inline object, a heap pointer (an address), a nulled pointer, dead bytes
  (`junk`), or bytes produced by a type-confused reinterpretation
  (`corrupt` -- the model's stand-in for undefined behavior on the data).
* The heap is explicit (`Heap`), with an allocation counter so that
  "performs N heap allocations" is a statement about program states.
* The two erased references of `func_base` -- `call` (invoke_f) and
  `actions` (action_f) -- become `CallRef` and `Actions`.  A raw function
  pointer stored through the fast path is `CallRef.fptr` with
  `Actions.null`, exactly the sentinel convention of the source.
* Each member function of `detail::func_base` is translated into a Lean
  function on `Container`/`Heap`; undefined behavior on the invocation path
  surfaces as `Except.error CallError.ub`, and a thrown
  `vx::bad_function_call` as `Except.error CallError.badFunctionCall`.
-/

namespace Vx

/-- Mirror of `vx::configuration::func` (func.hpp lines 22-55), with the same
member defaults; `alignment` defaults to `alignof(std::max_align_t)` = 16. -/
structure Config where
  SBO : Nat := 32
  alignment : Nat := 16
  allow_return_type_conversion : Bool := true
  require_nothrow_relocatable : Bool := false
  require_nothrow_invocable : Bool := false
  require_nothrow_copyable : Bool := false
  require_const_invocable : Bool := false
  require_nothrow_movable : Bool := true
  optimize_for_func_ptrs : Bool := true
  enable_typeinfo : Bool := false
  can_be_empty : Bool := false
  check_empty : Bool := false
  allow_heap : Bool := true
  copyable : Bool := true
  movable : Bool := true
deriving Repr, DecidableEq

/-- Mirror of `configuration::func::with_nothrow_invocable` (lines 40-44):
takes a copy of the configuration and sets one field on the copy. -/
def Config.with_nothrow_invocable (c : Config) (state : Bool) : Config :=
  { c with require_nothrow_invocable := state }

/-- Mirror of `configuration::func::with_const_invocable` (lines 46-50). -/
def Config.with_const_invocable (c : Config) (state : Bool) : Config :=
  { c with require_const_invocable := state }

/-- Mirror of `configuration::func::has_empty_state` (lines 52-54). -/
def Config.has_empty_state (c : Config) : Bool :=
  c.can_be_empty || c.check_empty

/-- Abstraction of a concrete C++ callable type F: the compile-time facts the
template machinery of func.hpp branches on, plus its behavior.  `id` stands
for the type's identity (two distinct C++ types get distinct ids); `run`
maps captured state and argument to new state and returned value. -/
structure Kind where
  id : Nat
  size : Nat := 8
  align : Nat := 8
  nothrowMove : Bool := true
  nothrowCall : Bool := true
  copyCtor : Bool := true
  moveCtor : Bool := true
  run : Int → Int → Int × Int

/-- A runtime object of some concrete callable type: its type plus the
current captured state. -/
structure Val where
  kind : Kind
  state : Int

/-- Mirror of `detail::func_base::is_sbo_eligible` (func.hpp lines 155-158):
fits into the SBO buffer, has lower alignment, the configured alignment is a
multiple of the type's, and (unless nothrow move is not required) the type is
nothrow-move-constructible. -/
def is_sbo_eligible (cfg : Config) (K : Kind) : Bool :=
  decide (K.size ≤ cfg.SBO) && decide (K.align ≤ cfg.alignment) &&
  (cfg.alignment % K.align == 0) &&
  (!cfg.require_nothrow_movable || K.nothrowMove)

/-- Mirror of `func_base::has_multiple_actions` (line 172). -/
def has_multiple_actions (cfg : Config) : Bool :=
  cfg.movable || cfg.copyable || cfg.enable_typeinfo

/-- The contents of the `memory_SBO` union (lines 90-148).  `junk` is
uninitialized or abandoned bytes, `corrupt` marks bytes produced by an
operation applied through a dispatcher generated for a different concrete
type (undefined behavior in the source), `inl` a live inline object,
`ptr`/`nullp` the pointer interpretation. -/
inductive Cell where
  | junk
  | corrupt
  | inl (v : Val)
  | ptr (a : Nat)
  | nullp

/-- Explicit heap: a memory map, the next fresh address, and a counter of
allocations performed so far (each `new` bumps it; `delete` does not). -/
structure Heap where
  mem : Nat → Option Val
  next : Nat
  allocs : Nat

def Heap.read (h : Heap) (a : Nat) : Option Val := h.mem a

def Heap.write (h : Heap) (a : Nat) (v : Val) : Heap :=
  { h with mem := fun x => if x = a then some v else h.mem x }

def Heap.free (h : Heap) (a : Nat) : Heap :=
  { h with mem := fun x => if x = a then none else h.mem x }

/-- Model of `new F{...}`: places the object at a fresh address and counts
one allocation. -/
def Heap.alloc (h : Heap) (v : Val) : Heap × Nat :=
  ({ mem := fun x => if x = h.next then some v else h.mem x,
     next := h.next + 1, allocs := h.allocs + 1 }, h.next)

def Heap.emptyHeap : Heap := ⟨fun _ => none, 0, 0⟩

/-- All live cells sit below `next`; true of every heap reachable from
`emptyHeap` by the operations above. -/
def Heap.wf (h : Heap) : Prop := ∀ a, h.next ≤ a → h.mem a = none

/-- The type-erased `actions` field (action_f, line 568): either the null
pointer (fast-path function-pointer containers), the `noop_actions` lambda
(line 280), the plain destroyer `dtor_action<F>` (lines 184-190), or the
tagged dispatcher `multiple_actions<F>` (lines 193-250).  The kind records
which concrete type the operation was generated for. -/
inductive Actions where
  | null
  | noop
  | dtorOnly (K : Kind)
  | multi (K : Kind)

/-- Null test on the operation reference (the `actions == nullptr` checks). -/
def Actions.isNull : Actions → Bool
  | .null => true
  | _ => false

/-- The type-erased `call` field (invoke_f, line 567): the null pointer, a
raw function pointer stored directly (fast path, line 347), or the
trampoline `caller_for<F>` (lines 262-273). -/
inductive CallRef where
  | none
  | fptr (f : Int → Int)
  | trampoline (K : Kind)

/-- Null test on the invocation reference (the `call == nullptr` checks). -/
def CallRef.isNone : CallRef → Bool
  | .none => true
  | _ => false

/-- The state of a `detail::func_base` object: storage cell, invocation
reference, operation reference (fields `data`, `call`, `actions`,
lines 566-568). -/
structure Container where
  data : Cell
  call : CallRef
  actions : Actions

/-- Mirror of `operator bool` (lines 506-508). -/
def Container.toBool (c : Container) : Bool := !c.call.isNone

/-- The `dispatch_tag::Move` branch of `multiple_actions<K>` (lines
203-214), acting on a source cell and a destination cell; returns the new
(source, destination) pair.  For an SBO-eligible K it placement-move-
constructs a K from the source bytes reinterpreted as K
(`move_into_sbo`, lines 122-124): if the source actually holds an object of
a different concrete type this is type confusion, modelled by `corrupt`.
For a heap K it transfers the raw pointer word and nulls the source
(`move_into_ptr`, lines 127-130), which is type-agnostic.  If the
configuration forbids move (or K is not move-constructible) the branch is
`VX_UNREACHABLE()`; the model returns a corrupt destination there. -/
def moveBranch (cfg : Config) (K : Kind) (mem newMem : Cell) : Cell × Cell :=
  if cfg.movable && K.moveCtor then
    if is_sbo_eligible cfg K then
      match mem with
      | .inl v => if v.kind.id = K.id then (.junk, .inl v) else (mem, .corrupt)
      | _ => (mem, .corrupt)
    else
      match mem with
      | .ptr a => (.nullp, .ptr a)
      | .nullp => (.nullp, .nullp)
      | .inl _ => (.corrupt, .corrupt)
      | .junk => (.junk, .corrupt)
      | .corrupt => (.corrupt, .corrupt)
  else (mem, .corrupt)

/-- The `dispatch_tag::Copy` branch of `multiple_actions<K>` (lines
216-228): placement-copy-construct for an SBO-eligible K
(`copy_into_sbo`, lines 132-136), or allocate-and-copy for a heap K
(`copy_into_ptr`, lines 138-141).  Returns the new destination cell and the
new heap (the source is const).  The disabled branch is `VX_UNREACHABLE()`. -/
def copyBranch (cfg : Config) (K : Kind) (mem newMem : Cell) (h : Heap) :
    Cell × Heap :=
  if cfg.copyable && K.copyCtor then
    if is_sbo_eligible cfg K then
      match mem with
      | .inl v => if v.kind.id = K.id then (.inl v, h) else (.corrupt, h)
      | _ => (.corrupt, h)
    else
      match mem with
      | .ptr a =>
        match h.read a with
        | some v =>
          if v.kind.id = K.id then
            let p := h.alloc v
            (.ptr p.2, p.1)
          else (.corrupt, h)
        | Option.none => (.corrupt, h)
      | _ => (.corrupt, h)
  else (.corrupt, h)

/-- The `dispatch_tag::Dtor` branch of `multiple_actions<K>` (lines
195-201) and the body of `dtor_action<K>` (lines 184-190): in-place
destructor for an SBO-eligible K (`del_sbo`, line 144), `delete` of the
stored pointer for a heap K (`del_ptr`, line 147; deleting a null pointer
is a no-op).  Returns the (dead) cell and the new heap. -/
def dtorBranch (cfg : Config) (K : Kind) (mem : Cell) (h : Heap) :
    Cell × Heap :=
  if is_sbo_eligible cfg K then
    match mem with
    | .inl v => if v.kind.id = K.id then (.junk, h) else (.corrupt, h)
    | _ => (.corrupt, h)
  else
    match mem with
    | .ptr a => (.junk, h.free a)
    | .nullp => (.junk, h)
    | _ => (.corrupt, h)

/-- A raw `actions(dispatch_tag::Move, src, &dst)` call through whatever the
operation reference currently is: `noop_actions` does nothing; calling a
null pointer, or a plain destroyer with a Move tag, cannot happen in a
well-typed run and is modelled as corrupting the destination. -/
def rawMoveCall (cfg : Config) (acts : Actions) (src dst : Cell) :
    Cell × Cell :=
  match acts with
  | .multi K => moveBranch cfg K src dst
  | .noop => (src, dst)
  | .null => (src, .corrupt)
  | .dtorOnly _ => (src, .corrupt)

/-- Mirror of `func_base::move_into` (lines 551-556): under the fast-path
optimization a null operation reference makes it a no-op, otherwise it
dispatches Move from this container's cell into `dest`.  Returns the new
(this->data, dest) pair. -/
def Container.move_into (cfg : Config) (c : Container) (dest : Cell) :
    Cell × Cell :=
  if cfg.optimize_for_func_ptrs && c.actions.isNull then (c.data, dest)
  else rawMoveCall cfg c.actions c.data dest

/-- Mirror of `func_base::copy_into` (lines 558-563).  Returns the new
destination cell and heap (this container is const). -/
def Container.copy_into (cfg : Config) (c : Container) (dest : Cell)
    (h : Heap) : Cell × Heap :=
  if cfg.optimize_for_func_ptrs && c.actions.isNull then (dest, h)
  else
    match c.actions with
    | .multi K => copyBranch cfg K c.data dest h
    | .noop => (dest, h)
    | _ => (.corrupt, h)

/-- Mirror of `func_base::reset` (lines 528-541): destroy the stored value
through the operation reference (skipped for fast-path function pointers and
for a null reference), then null the invocation reference and install
`noop_actions`. -/
def Container.reset (cfg : Config) (c : Container) (h : Heap) :
    Container × Heap :=
  if cfg.optimize_for_func_ptrs && c.actions.isNull then
    ({ c with call := .none, actions := .noop }, h)
  else
    match c.actions with
    | .null => ({ c with call := .none, actions := .noop }, h)
    | .noop => ({ c with call := .none, actions := .noop }, h)
    | .dtorOnly _ => ({ c with call := .none, actions := .noop }, h)
    | .multi K =>
      let p := dtorBranch cfg K c.data h
      ({ data := p.1, call := .none, actions := .noop }, p.2)

/-- Mirror of the converting constructor `func_base(F&&)` (lines 305-344).
`none` models static rejection: the requires-clause
`cfg.allow_heap || is_sbo_eligible<F>` (line 308) and the static asserts on
noexcept invocation (312-314), copyability (317-318) and movability
(320-321).  Otherwise the callable is placed inline or on the heap by the
eligibility rule (323-330) and the two references are bound (332-343). -/
def constructFrom (cfg : Config) (v : Val) (h : Heap) :
    Option (Container × Heap) :=
  if !(cfg.allow_heap || is_sbo_eligible cfg v.kind) then none
  else if cfg.require_nothrow_invocable && !v.kind.nothrowCall then none
  else if cfg.copyable && !v.kind.copyCtor then none
  else if cfg.movable && !v.kind.moveCtor then none
  else
    let placed : Cell × Heap :=
      if is_sbo_eligible cfg v.kind then (Cell.inl v, h)
      else
        let p := h.alloc v
        (Cell.ptr p.2, p.1)
    some ({ data := placed.1,
            call := .trampoline v.kind,
            actions := if has_multiple_actions cfg then .multi v.kind
                       else .dtorOnly v.kind }, placed.2)

/-- Mirror of the function-pointer fast-path constructor
`func_base(R(*)(Args...))` (lines 346-349): available only when
`optimize_for_func_ptrs` is set; stores the pointer directly in the
invocation slot and leaves the operation reference null.  It takes no heap:
by construction it cannot allocate. -/
def constructFromFptr (cfg : Config) (f : Int → Int) : Option Container :=
  if cfg.optimize_for_func_ptrs then
    some { data := .junk, call := .fptr f, actions := .null }
  else none

/-- Mirror of the default constructors (lines 284-292): requires
`can_be_empty`; the operation reference is `noop_actions` when the
configuration has copy or move capability and null otherwise. -/
def defaultConstruct (cfg : Config) : Option Container :=
  if cfg.can_be_empty && (cfg.copyable || cfg.movable) then
    some { data := .junk, call := .none, actions := .noop }
  else if cfg.can_be_empty then
    some { data := .junk, call := .none, actions := .null }
  else none

/-- Mirror of the move constructor (lines 380-387): requires `movable`;
moves the source's storage in, takes its references, and leaves the source
with a null invocation reference and `noop_actions`.  Takes no heap: a move
never allocates.  Returns (new container, moved-from source). -/
def moveConstruct (cfg : Config) (other : Container) :
    Option (Container × Container) :=
  if cfg.movable then
    let p := other.move_into cfg Cell.junk
    some ({ data := p.2, call := other.call, actions := other.actions },
          { data := p.1, call := .none, actions := .noop })
  else none

/-- Mirror of move assignment (lines 390-399) for two distinct objects:
`reset()` the target, then as in the move constructor.  Returns (new
target, moved-from source, heap). -/
def moveAssign (cfg : Config) (t other : Container) (h : Heap) :
    Option (Container × Container × Heap) :=
  if cfg.movable then
    let rp := t.reset cfg h
    let p := other.move_into cfg rp.1.data
    some ({ data := p.2, call := other.call, actions := other.actions },
          { data := p.1, call := .none, actions := .noop }, rp.2)
  else none

/-- Move assignment (lines 390-399) where source and target are the same
object (`a = std::move(a)`): `reset()` destroys the stored value and
installs (null call, noop actions); the subsequent `other.move_into(data)`
then dispatches through `noop_actions`, and both `std::exchange` calls read
the already-nulled fields. -/
def selfMoveAssign (cfg : Config) (c : Container) (h : Heap) :
    Option (Container × Heap) :=
  if cfg.movable then
    let rp := c.reset cfg h
    let p := rp.1.move_into cfg rp.1.data
    some ({ data := p.2, call := rp.1.call, actions := Actions.noop }, rp.2)
  else none

/-- Mirror of the copy constructor (lines 403-408): requires `copyable`;
copies the references and duplicates the storage through `copy_into`. -/
def copyConstruct (cfg : Config) (other : Container) (h : Heap) :
    Option (Container × Heap) :=
  if cfg.copyable then
    let p := other.copy_into cfg Cell.junk h
    some ({ data := p.1, call := other.call, actions := other.actions }, p.2)
  else none

/-- Mirror of copy assignment (lines 411-417) for distinct objects. -/
def copyAssign (cfg : Config) (t other : Container) (h : Heap) :
    Option (Container × Heap) :=
  if cfg.copyable then
    let rp := t.reset cfg h
    let p := other.copy_into cfg rp.1.data rp.2
    some ({ data := p.1, call := other.call, actions := other.actions }, p.2)
  else none

/-- Mirror of `func_base::swap` (lines 420-441) on two distinct objects
(the `&other == this` early return is the identity and is not modelled).
Three-way rotation: `other.move_into(tmp)`, `this->move_into(other.data)`,
then the raw call `actions(dispatch_tag::Move, tmp, &data)` -- note that
this third step dispatches through THIS container's operation reference
although `tmp` holds the OTHER container's old value -- followed by
`std::swap` of the two reference fields.  Returns the new (this, other). -/
def swap (cfg : Config) (a b : Container) : Option (Container × Container) :=
  if cfg.movable then
    let s1 := b.move_into cfg Cell.junk
    let s2 := a.move_into cfg s1.1
    let s3 :=
      if cfg.optimize_for_func_ptrs && a.actions.isNull then (s1.2, s2.1)
      else rawMoveCall cfg a.actions s1.2 s2.1
    some ({ data := s3.2, call := b.call, actions := b.actions },
          { data := s2.2, call := a.call, actions := a.actions })
  else none

/-- Mirror of the destructor (lines 515-525): skipped for fast-path
function pointers; a plain destroyer is called directly when the
configuration grants no move/copy/typeinfo capability; otherwise the Dtor
tag is dispatched unless the object was moved out (null invocation
reference). -/
def destroy (cfg : Config) (c : Container) (h : Heap) : Heap :=
  if cfg.optimize_for_func_ptrs && c.actions.isNull then h
  else if !(has_multiple_actions cfg) then
    match c.actions with
    | .dtorOnly K => (dtorBranch cfg K c.data h).2
    | _ => h
  else if c.call.isNone then h
  else
    match c.actions with
    | .multi K => (dtorBranch cfg K c.data h).2
    | _ => h

/-- How an invocation can fail to return normally: `bad_function_call`
thrown by the emptiness check (lines 445-447, 63-66), or undefined
behavior (calling a null reference, reading a dead or type-confused cell). -/
inductive CallError where
  | badFunctionCall
  | ub
deriving Repr, DecidableEq

/-- Mirror of `operator()` (lines 444-457): the emptiness check first; then
under the fast-path optimization a null operation reference means `call` is
a raw function pointer, otherwise `call` is the trampoline `caller_for<K>`
(lines 262-273), which reinterprets the cell as K inline or dereferences
the stored pointer, invokes, and returns the (converted) result.  The
result carries the mutated container, heap, and returned value.  Return
type conversion (line 264-272) is the identity here since the model fixes
R = Int on both paths. -/
def invoke (cfg : Config) (c : Container) (h : Heap) (arg : Int) :
    Except CallError (Container × Heap × Int) :=
  if cfg.check_empty && c.call.isNone then .error .badFunctionCall
  else if cfg.optimize_for_func_ptrs && c.actions.isNull then
    match c.call with
    | .fptr f => .ok (c, h, f arg)
    | _ => .error .ub
  else
    match c.call with
    | .trampoline K =>
      if is_sbo_eligible cfg K then
        match c.data with
        | .inl v =>
          if v.kind.id = K.id then
            let p := v.kind.run v.state arg
            .ok ({ c with data := .inl ⟨v.kind, p.1⟩ }, h, p.2)
          else .error .ub
        | _ => .error .ub
      else
        match c.data with
        | .ptr a =>
          match h.read a with
          | some v =>
            if v.kind.id = K.id then
              let p := v.kind.run v.state arg
              .ok (c, h.write a ⟨v.kind, p.1⟩, p.2)
            else .error .ub
          | Option.none => .error .ub
        | _ => .error .ub
    | _ => .error .ub

/-- The observable outcome of one invocation: the returned value, or `none`
when the call does not return normally. -/
def observe (cfg : Config) (c : Container) (h : Heap) (arg : Int) :
    Option Int :=
  match invoke cfg c h arg with
  | .ok r => some r.2.2
  | .error _ => none

end Vx

namespace Vx

/-! ## Concrete fixtures used by witnesses and counterexamples -/

/-- The default configuration `configuration::func{}`. -/
def cfgD : Config := {}

/-- The spec's swap scenario configuration: inline capacity 0, copy
disabled, move enabled. -/
def cfg0 : Config := { SBO := 0, copyable := false }

/-- Emptiness allowed and checked. -/
def cfgE : Config := { can_be_empty := true, check_empty := true }

/-- A small stateful callable type: returns state + argument. -/
def K1 : Kind := { id := 1, run := fun s a => (s, s + a) }

/-- A distinct small stateful callable type: returns state * argument. -/
def K2 : Kind := { id := 2, run := fun s a => (s, s * a) }

/-- A stateless callable type behaving like the plain function fun a => a + 1. -/
def Kf : Kind := { id := 3, run := fun s a => (s, a + 1) }

/-- A mutating callable type: bumps its captured state on every call. -/
def Kmut : Kind := { id := 4, run := fun s a => (s + 1, s * 10 + a) }

/-- The abstraction of the plain-function-pointer type R(*)(Args...):
sizeof and alignof 8, trivially nothrow movable/copyable. -/
def fptrKind : Kind := { id := 100, run := fun s a => (s, a + 1) }

/-- Container produced by constructing from a K1 value with state 100
under the default configuration (inline placement). -/
def a0 : Container := ⟨Cell.inl ⟨K1, 100⟩, CallRef.trampoline K1, Actions.multi K1⟩

/-- Container produced by constructing from a K2 value with state 7 under
the default configuration (inline placement). -/
def b0 : Container := ⟨Cell.inl ⟨K2, 7⟩, CallRef.trampoline K2, Actions.multi K2⟩

/-! ## Generic lemmas about the embedding -/

/-- Unfolding of the eligibility predicate into the four conditions the
spec states. -/
theorem is_sbo_eligible_iff (cfg : Config) (K : Kind) :
    is_sbo_eligible cfg K = true ↔
      (K.size ≤ cfg.SBO ∧ K.align ≤ cfg.alignment ∧
       cfg.alignment % K.align = 0 ∧
       (cfg.require_nothrow_movable = false ∨ K.nothrowMove = true)) := by
  simp [is_sbo_eligible, Bool.and_eq_true, decide_eq_true_iff,
    Bool.or_eq_true, Bool.not_eq_true', and_assoc]

/-- Writing a heap cell does not change the allocation counter. -/
theorem Heap.write_allocs (h : Heap) (a : Nat) (v : Val) :
    (h.write a v).allocs = h.allocs := rfl

/-- Freeing a heap cell does not change the allocation counter. -/
theorem Heap.free_allocs (h : Heap) (a : Nat) :
    (h.free a).allocs = h.allocs := rfl

/-- Invocation never allocates: whenever `operator()` returns normally the
allocation counter is unchanged. -/
theorem invoke_allocs (cfg : Config) (c : Container) (h : Heap) (arg : Int)
    (t : Container × Heap × Int) (hi : invoke cfg c h arg = .ok t) :
    t.2.1.allocs = h.allocs := by
  unfold invoke at hi
  split at hi
  · exact absurd hi (by simp)
  split at hi
  · match c, hi with
    | ⟨d, .fptr f, acts⟩, hi =>
      simp only [Except.ok.injEq] at hi
      subst hi; rfl
  · match c, hi with
    | ⟨d, .trampoline K, acts⟩, hi =>
      dsimp only at hi
      split at hi
      · split at hi
        · split at hi
          · simp only [Except.ok.injEq] at hi; subst hi; rfl
          · exact absurd hi (by simp)
        all_goals exact absurd hi (by simp)
      · split at hi
        · split at hi
          · split at hi
            · simp only [Except.ok.injEq] at hi; subst hi; rfl
            · exact absurd hi (by simp)
          · exact absurd hi (by simp)
        all_goals exact absurd hi (by simp)

/-- Destruction never allocates. -/
theorem destroy_allocs (cfg : Config) (c : Container) (h : Heap) :
    (destroy cfg c h).allocs = h.allocs := by
  unfold destroy
  split
  · rfl
  split
  · match c.actions with
    | .dtorOnly K =>
      dsimp only
      unfold dtorBranch
      split
      · split <;> first | rfl | (split <;> rfl)
      · split <;> rfl
    | .null => rfl
    | .noop => rfl
    | .multi _ => rfl
  split
  · rfl
  · match c.actions with
    | .multi K =>
      dsimp only
      unfold dtorBranch
      split
      · split <;> first | rfl | (split <;> rfl)
      · split <;> rfl
    | .null => rfl
    | .noop => rfl
    | .dtorOnly _ => rfl

end Vx

namespace Vx

/-! ## Claims C9, C5, C3, C8 -/

/-- C9: each of the two derived setters (`with_nothrow_invocable`,
`with_const_invocable`) returns a copy in which only the toggled field holds
the requested state and every other field equals the original's.  The
original is untouched: the C++ setters are const-qualified and operate on
`auto copy = *this`, and the model is a pure function of the original
value. -/
theorem c9_setters_frame (cfg : Config) (s₁ s₂ : Bool) :
    ((cfg.with_nothrow_invocable s₁).require_nothrow_invocable = s₁ ∧
     (cfg.with_nothrow_invocable s₁).SBO = cfg.SBO ∧
     (cfg.with_nothrow_invocable s₁).alignment = cfg.alignment ∧
     (cfg.with_nothrow_invocable s₁).allow_return_type_conversion
        = cfg.allow_return_type_conversion ∧
     (cfg.with_nothrow_invocable s₁).require_nothrow_relocatable
        = cfg.require_nothrow_relocatable ∧
     (cfg.with_nothrow_invocable s₁).require_nothrow_copyable
        = cfg.require_nothrow_copyable ∧
     (cfg.with_nothrow_invocable s₁).require_const_invocable
        = cfg.require_const_invocable ∧
     (cfg.with_nothrow_invocable s₁).require_nothrow_movable
        = cfg.require_nothrow_movable ∧
     (cfg.with_nothrow_invocable s₁).optimize_for_func_ptrs
        = cfg.optimize_for_func_ptrs ∧
     (cfg.with_nothrow_invocable s₁).enable_typeinfo = cfg.enable_typeinfo ∧
     (cfg.with_nothrow_invocable s₁).can_be_empty = cfg.can_be_empty ∧
     (cfg.with_nothrow_invocable s₁).check_empty = cfg.check_empty ∧
     (cfg.with_nothrow_invocable s₁).allow_heap = cfg.allow_heap ∧
     (cfg.with_nothrow_invocable s₁).copyable = cfg.copyable ∧
     (cfg.with_nothrow_invocable s₁).movable = cfg.movable) ∧
    ((cfg.with_const_invocable s₂).require_const_invocable = s₂ ∧
     (cfg.with_const_invocable s₂).SBO = cfg.SBO ∧
     (cfg.with_const_invocable s₂).alignment = cfg.alignment ∧
     (cfg.with_const_invocable s₂).allow_return_type_conversion
        = cfg.allow_return_type_conversion ∧
     (cfg.with_const_invocable s₂).require_nothrow_relocatable
        = cfg.require_nothrow_relocatable ∧
     (cfg.with_const_invocable s₂).require_nothrow_invocable
        = cfg.require_nothrow_invocable ∧
     (cfg.with_const_invocable s₂).require_nothrow_copyable
        = cfg.require_nothrow_copyable ∧
     (cfg.with_const_invocable s₂).require_nothrow_movable
        = cfg.require_nothrow_movable ∧
     (cfg.with_const_invocable s₂).optimize_for_func_ptrs
        = cfg.optimize_for_func_ptrs ∧
     (cfg.with_const_invocable s₂).enable_typeinfo = cfg.enable_typeinfo ∧
     (cfg.with_const_invocable s₂).can_be_empty = cfg.can_be_empty ∧
     (cfg.with_const_invocable s₂).check_empty = cfg.check_empty ∧
     (cfg.with_const_invocable s₂).allow_heap = cfg.allow_heap ∧
     (cfg.with_const_invocable s₂).copyable = cfg.copyable ∧
     (cfg.with_const_invocable s₂).movable = cfg.movable) := by
  refine ⟨?_, ?_⟩ <;> (repeat' apply And.intro) <;> rfl

/-- C5: with emptiness-checking enabled, invoking a container whose
invocation reference is null raises `bad_function_call` (a distinguished
failure, not a generic fault and not termination), for every argument. -/
theorem c5_empty_invocation (cfg : Config) (c : Container) (h : Heap)
    (arg : Int) (hchk : cfg.check_empty = true)
    (hempty : c.call = CallRef.none) :
    invoke cfg c h arg = .error .badFunctionCall := by
  unfold invoke
  rw [hempty, hchk]
  rfl

/-- Witness for C5: the spec's concrete scenario -- emptiness allowed and
checked, default-constructed container -- raises the empty-invocation
failure. -/
theorem c5_empty_invocation_witness :
    defaultConstruct cfgE
        = some ⟨Cell.junk, CallRef.none, Actions.noop⟩ ∧
    invoke cfgE ⟨Cell.junk, CallRef.none, Actions.noop⟩ Heap.emptyHeap 0
        = .error .badFunctionCall :=
  ⟨rfl, c5_empty_invocation cfgE ⟨Cell.junk, CallRef.none, Actions.noop⟩
      Heap.emptyHeap 0 rfl rfl⟩

/-- C3: a successfully constructed container uses inline placement exactly
when the four conditions of the eligibility rule hold (size fits, alignment
fits, configured alignment divisible by the type's, and nothrow move not
required or available); when the predicate is false the value goes to the
heap (necessarily with heap fallback permitted). -/
theorem c3_inline_placement (cfg : Config) (v : Val) (h : Heap)
    (c : Container) (h₁ : Heap)
    (hc : constructFrom cfg v h = some (c, h₁)) :
    (c.data = Cell.inl v ↔
       (v.kind.size ≤ cfg.SBO ∧ v.kind.align ≤ cfg.alignment ∧
        cfg.alignment % v.kind.align = 0 ∧
        (cfg.require_nothrow_movable = false ∨ v.kind.nothrowMove = true)))
    ∧ (is_sbo_eligible cfg v.kind = false →
        cfg.allow_heap = true ∧ c.data = Cell.ptr h.next) := by
  unfold constructFrom at hc
  split at hc
  · exact absurd hc (by simp)
  next hguard =>
  split at hc
  · exact absurd hc (by simp)
  split at hc
  · exact absurd hc (by simp)
  split at hc
  · exact absurd hc (by simp)
  rw [← is_sbo_eligible_iff]
  simp only [Option.some.injEq, Prod.mk.injEq] at hc
  obtain ⟨hcc, -⟩ := hc
  subst hcc
  by_cases he : is_sbo_eligible cfg v.kind = true
  · exact ⟨by simp [he], fun hfalse => by rw [he] at hfalse; cases hfalse⟩
  · rw [Bool.not_eq_true] at he
    refine ⟨by simp [he], fun _ => ⟨?_, by simp [he, Heap.alloc]⟩⟩
    simp [he] at hguard
    exact hguard

/-- Witness for C3 at a concrete input: a small nothrow-movable callable
under the default configuration is placed inline. -/
theorem c3_inline_placement_witness :
    a0.data = Cell.inl ⟨K1, 100⟩ ↔
      (K1.size ≤ cfgD.SBO ∧ K1.align ≤ cfgD.alignment ∧
       cfgD.alignment % K1.align = 0 ∧
       (cfgD.require_nothrow_movable = false ∨ K1.nothrowMove = true)) :=
  (c3_inline_placement cfgD ⟨K1, 100⟩ Heap.emptyHeap a0 Heap.emptyHeap rfl).1

end Vx

namespace Vx

/-! ## Claims C8 and C2 -/

/-- C8: for a callable type meeting the configuration's prerequisite static
asserts (noexcept call if required, copy-constructible if the configuration
is copyable, move-constructible if movable), the converting constructor is
statically available exactly when heap fallback is permitted or the type is
inline-eligible; the rejection is the requires-clause at line 308, a
type-check-time absence, never a runtime failure (the model has no
failure-returning construction path at all). -/
theorem c8_construction_availability (cfg : Config) (v : Val) (h : Heap)
    (h1 : cfg.require_nothrow_invocable = true → v.kind.nothrowCall = true)
    (h2 : cfg.copyable = true → v.kind.copyCtor = true)
    (h3 : cfg.movable = true → v.kind.moveCtor = true) :
    (constructFrom cfg v h).isSome = true ↔
      (cfg.allow_heap = true ∨ is_sbo_eligible cfg v.kind = true) := by
  unfold constructFrom
  by_cases hg : (cfg.allow_heap || is_sbo_eligible cfg v.kind) = true
  · rw [if_neg (by simp [hg])]
    have hni : ¬(cfg.require_nothrow_invocable && !v.kind.nothrowCall) = true := by
      intro hx
      rw [Bool.and_eq_true] at hx
      rw [h1 hx.1] at hx
      simp at hx
    have hcp : ¬(cfg.copyable && !v.kind.copyCtor) = true := by
      intro hx
      rw [Bool.and_eq_true] at hx
      rw [h2 hx.1] at hx
      simp at hx
    have hmv : ¬(cfg.movable && !v.kind.moveCtor) = true := by
      intro hx
      rw [Bool.and_eq_true] at hx
      rw [h3 hx.1] at hx
      simp at hx
    rw [if_neg hni, if_neg hcp, if_neg hmv]
    simpa using hg
  · rw [if_pos (by simpa using hg)]
    rw [Bool.or_eq_true] at hg
    simpa using hg

/-- Witness for C8 at a concrete input: under the default configuration,
construction from a small callable is available, matching the permitted
right-hand side. -/
theorem c8_construction_availability_witness :
    (constructFrom cfgD ⟨K1, 100⟩ Heap.emptyHeap).isSome = true ↔
      (cfgD.allow_heap = true ∨ is_sbo_eligible cfgD K1 = true) :=
  c8_construction_availability cfgD ⟨K1, 100⟩ Heap.emptyHeap
    (fun hx => by cases hx) (fun _ => rfl) (fun _ => rfl)

/-- C2 (amended): for a container created through the templated
(trampoline-path) constructor, the construction leaves the allocation
counter unchanged exactly when the type is inline-eligible, and the rest of
the lifecycle never allocates: invocation and destruction never touch the
counter, and for an inline-eligible type the copy operation does not
either.  Move construction, move assignment and swap do not take a heap at
all in this model (`moveConstruct`, `swap` have no Heap argument), since
`move_into_sbo`/`move_into_ptr` perform no allocation; so the only
lifecycle allocations are the construction of a non-eligible value and the
copy of a non-eligible value. -/
theorem c2_eligible_no_alloc (cfg : Config) (v : Val) (h : Heap)
    (c : Container) (h₁ : Heap)
    (hc : constructFrom cfg v h = some (c, h₁)) :
    ((h₁.allocs = h.allocs) ↔ is_sbo_eligible cfg v.kind = true)
    ∧ (∀ arg t, invoke cfg c h₁ arg = .ok t → t.2.1.allocs = h₁.allocs)
    ∧ (destroy cfg c h₁).allocs = h₁.allocs
    ∧ (is_sbo_eligible cfg v.kind = true →
        ∀ dest, ((c.copy_into cfg dest h₁).2).allocs = h₁.allocs) := by
  refine ⟨?_, fun arg t ht => invoke_allocs cfg c h₁ arg t ht,
    destroy_allocs cfg c h₁, ?_⟩
  · unfold constructFrom at hc
    split at hc
    · exact absurd hc (by simp)
    split at hc
    · exact absurd hc (by simp)
    split at hc
    · exact absurd hc (by simp)
    split at hc
    · exact absurd hc (by simp)
    simp only [Option.some.injEq, Prod.mk.injEq] at hc
    obtain ⟨-, hh⟩ := hc
    by_cases he : is_sbo_eligible cfg v.kind = true
    · simp only [he, if_true] at hh
      subst hh
      simpa using he
    · rw [Bool.not_eq_true] at he
      simp only [he, Bool.false_eq_true, if_false] at hh
      subst hh
      simp only [he, Bool.false_eq_true, iff_false]
      simp [Heap.alloc]
  · intro he dest
    have hacts : c.actions = (if has_multiple_actions cfg then Actions.multi v.kind
        else Actions.dtorOnly v.kind) := by
      unfold constructFrom at hc
      split at hc
      · exact absurd hc (by simp)
      split at hc
      · exact absurd hc (by simp)
      split at hc
      · exact absurd hc (by simp)
      split at hc
      · exact absurd hc (by simp)
      simp only [Option.some.injEq, Prod.mk.injEq] at hc
      obtain ⟨hcc, -⟩ := hc
      subst hcc
      rfl
    unfold Container.copy_into
    rw [hacts]
    by_cases hm : has_multiple_actions cfg = true
    · rw [if_pos hm]
      simp only [Actions.isNull, Bool.and_false, Bool.false_eq_true, if_false]
      unfold copyBranch
      by_cases hcp : (cfg.copyable && v.kind.copyCtor) = true
      · rw [if_pos hcp, if_pos he]
        cases hd : c.data <;> simp only
        · split <;> rfl
      · rw [if_neg hcp]
    · rw [if_neg hm]
      simp only [Actions.isNull, Bool.and_false, Bool.false_eq_true, if_false]

/-- C2 counterexample: the claim's iff fails at a plain function pointer
under a configuration with inline capacity 0.  The fast-path constructor
stores the pointer with no heap interaction, invocation returns normally
with the allocation counter still 0, destruction leaves it 0, and a move
of the container touches no heap by construction -- yet the function
pointer type (size 8) is not inline-eligible with SBO = 0. -/
theorem c2_fptr_zero_alloc_not_eligible :
    is_sbo_eligible cfg0 fptrKind = false
    ∧ constructFromFptr cfg0 (fun a => a + 1)
        = some ⟨Cell.junk, CallRef.fptr (fun a => a + 1), Actions.null⟩
    ∧ (invoke cfg0 ⟨Cell.junk, CallRef.fptr (fun a => a + 1), Actions.null⟩
         Heap.emptyHeap 5).toOption.map (fun t => (t.2.1.allocs, t.2.2))
        = some (0, 6)
    ∧ (destroy cfg0 ⟨Cell.junk, CallRef.fptr (fun a => a + 1), Actions.null⟩
         Heap.emptyHeap).allocs = 0
    ∧ (moveConstruct cfg0
         ⟨Cell.junk, CallRef.fptr (fun a => a + 1), Actions.null⟩).isSome
        = true :=
  ⟨rfl, rfl, rfl, rfl, rfl⟩

end Vx

namespace Vx

/-! ## Bound containers and observation lemmas -/

/-- Basic heap facts. -/
theorem Heap.read_write_self (h : Heap) (a : Nat) (v : Val) :
    (h.write a v).read a = some v := by simp [Heap.read, Heap.write]

theorem Heap.read_write_ne (h : Heap) (a b : Nat) (v : Val) (hne : b ≠ a) :
    (h.write a v).read b = h.read b := by simp [Heap.read, Heap.write, hne]

theorem Heap.read_free_self (h : Heap) (a : Nat) :
    (h.free a).read a = Option.none := by simp [Heap.read, Heap.free]

theorem Heap.read_free_ne (h : Heap) (a b : Nat) (hne : b ≠ a) :
    (h.free a).read b = h.read b := by simp [Heap.read, Heap.free, hne]

theorem Heap.read_alloc_self (h : Heap) (v : Val) :
    ((h.alloc v).1).read h.next = some v := by simp [Heap.read, Heap.alloc]

theorem Heap.read_alloc_ne (h : Heap) (v : Val) (b : Nat) (hne : b ≠ h.next) :
    ((h.alloc v).1).read b = h.read b := by simp [Heap.read, Heap.alloc, hne]

theorem Heap.lt_next_of_read (h : Heap) (hwf : h.wf) (a : Nat) (v : Val)
    (hr : h.read a = some v) : a < h.next := by
  by_contra hge
  rw [not_lt] at hge
  rw [Heap.read, hwf a hge] at hr
  cases hr

/-- The three shapes of a bound (invocable, non-empty) container that the
constructors of func.hpp produce: a fast-path function pointer, an inline
(SBO) value, or a heap value, in each case with the invocation and
operation references generated for the stored value's concrete type.  The
move/copy-constructibility side conditions record the constructor's static
asserts (func.hpp lines 317-321). -/
inductive IsBound (cfg : Config) (h : Heap) : Container → Prop where
  | fptrB (f : Int → Int) :
      cfg.optimize_for_func_ptrs = true →
      IsBound cfg h ⟨Cell.junk, CallRef.fptr f, Actions.null⟩
  | inlB (v : Val) :
      is_sbo_eligible cfg v.kind = true →
      (cfg.movable = true → v.kind.moveCtor = true) →
      (cfg.copyable = true → v.kind.copyCtor = true) →
      IsBound cfg h ⟨Cell.inl v, CallRef.trampoline v.kind, Actions.multi v.kind⟩
  | heapB (v : Val) (a : Nat) :
      is_sbo_eligible cfg v.kind = false →
      h.read a = some v →
      (cfg.movable = true → v.kind.moveCtor = true) →
      (cfg.copyable = true → v.kind.copyCtor = true) →
      IsBound cfg h ⟨Cell.ptr a, CallRef.trampoline v.kind, Actions.multi v.kind⟩

/-- Exact result of invoking a fast-path function-pointer container. -/
theorem invoke_fptr_eq (cfg : Config) (f : Int → Int) (d : Cell) (h : Heap)
    (arg : Int) (hopt : cfg.optimize_for_func_ptrs = true) :
    invoke cfg ⟨d, CallRef.fptr f, Actions.null⟩ h arg
      = .ok (⟨d, CallRef.fptr f, Actions.null⟩, h, f arg) := by
  unfold invoke
  simp [CallRef.isNone, Actions.isNull, hopt]

/-- Exact result of invoking an inline-bound container: the state mutates
in place, the heap is untouched. -/
theorem invoke_inl_eq (cfg : Config) (v : Val) (h : Heap) (arg : Int)
    (he : is_sbo_eligible cfg v.kind = true) :
    invoke cfg ⟨Cell.inl v, CallRef.trampoline v.kind, Actions.multi v.kind⟩ h arg
      = .ok (⟨Cell.inl ⟨v.kind, (v.kind.run v.state arg).1⟩,
              CallRef.trampoline v.kind, Actions.multi v.kind⟩, h,
             (v.kind.run v.state arg).2) := by
  unfold invoke
  simp [CallRef.isNone, Actions.isNull, he]

/-- Exact result of invoking a heap-bound container: the state mutates at
the stored address. -/
theorem invoke_heap_eq (cfg : Config) (v : Val) (a : Nat) (h : Heap)
    (arg : Int) (he : is_sbo_eligible cfg v.kind = false)
    (hr : h.read a = some v) :
    invoke cfg ⟨Cell.ptr a, CallRef.trampoline v.kind, Actions.multi v.kind⟩ h arg
      = .ok (⟨Cell.ptr a, CallRef.trampoline v.kind, Actions.multi v.kind⟩,
             h.write a ⟨v.kind, (v.kind.run v.state arg).1⟩,
             (v.kind.run v.state arg).2) := by
  unfold invoke
  simp [CallRef.isNone, Actions.isNull, he, hr]

/-- Observation of a fast-path function-pointer container. -/
theorem observe_fptr (cfg : Config) (f : Int → Int) (d : Cell) (h : Heap)
    (arg : Int) (hopt : cfg.optimize_for_func_ptrs = true) :
    observe cfg ⟨d, CallRef.fptr f, Actions.null⟩ h arg = some (f arg) := by
  unfold observe
  rw [invoke_fptr_eq cfg f d h arg hopt]

/-- Observation of an inline-bound container. -/
theorem observe_inl (cfg : Config) (v : Val) (h : Heap) (arg : Int)
    (he : is_sbo_eligible cfg v.kind = true) :
    observe cfg ⟨Cell.inl v, CallRef.trampoline v.kind, Actions.multi v.kind⟩ h arg
      = some (v.kind.run v.state arg).2 := by
  unfold observe
  rw [invoke_inl_eq cfg v h arg he]

/-- Observation of a heap-bound container. -/
theorem observe_heap (cfg : Config) (v : Val) (a : Nat) (h : Heap)
    (arg : Int) (he : is_sbo_eligible cfg v.kind = false)
    (hr : h.read a = some v) :
    observe cfg ⟨Cell.ptr a, CallRef.trampoline v.kind, Actions.multi v.kind⟩ h arg
      = some (v.kind.run v.state arg).2 := by
  unfold observe
  rw [invoke_heap_eq cfg v a h arg he hr]

/-- The heap after `reset` is either unchanged or has exactly the
container's own heap cell freed. -/
theorem reset_heap (cfg : Config) (T : Container) (h : Heap) :
    (T.reset cfg h).2 = h ∨
      ∃ x, T.data = Cell.ptr x ∧ (T.reset cfg h).2 = h.free x := by
  unfold Container.reset
  split
  · exact Or.inl rfl
  cases hT : T.actions
  case null => exact Or.inl rfl
  case noop => exact Or.inl rfl
  case dtorOnly K => exact Or.inl rfl
  case multi K =>
    dsimp only
    unfold dtorBranch
    split
    · cases T.data
      · exact Or.inl rfl
      · exact Or.inl rfl
      · dsimp only
        split
        · exact Or.inl rfl
        · exact Or.inl rfl
      · exact Or.inl rfl
      · exact Or.inl rfl
    · cases T.data
      · exact Or.inl rfl
      · exact Or.inl rfl
      · exact Or.inl rfl
      · exact Or.inr ⟨_, rfl, rfl⟩
      · exact Or.inl rfl

/-- After `reset` the invocation reference is null and the operation
reference is the no-op dispatcher, whatever the prior state. -/
theorem reset_fields (cfg : Config) (T : Container) (h : Heap) :
    ((T.reset cfg h).1).call = CallRef.none
      ∧ ((T.reset cfg h).1).actions = Actions.noop := by
  unfold Container.reset
  split
  · exact ⟨rfl, rfl⟩
  cases T.actions
  case null => exact ⟨rfl, rfl⟩
  case noop => exact ⟨rfl, rfl⟩
  case dtorOnly K => exact ⟨rfl, rfl⟩
  case multi K => exact ⟨rfl, rfl⟩

/-- Reading any address a reset does not free is unchanged. -/
theorem reset_read (cfg : Config) (T : Container) (h : Heap) (a : Nat)
    (hsep : ∀ x, T.data = Cell.ptr x → x ≠ a) :
    ((T.reset cfg h).2).read a = h.read a := by
  rcases reset_heap cfg T h with hh | ⟨x, hx, hh⟩
  · rw [hh]
  · rw [hh]
    exact Heap.read_free_ne h x a (Ne.symm (hsep x hx))

/-- Reset preserves the next-address watermark. -/
theorem reset_next (cfg : Config) (T : Container) (h : Heap) :
    ((T.reset cfg h).2).next = h.next := by
  rcases reset_heap cfg T h with hh | ⟨x, -, hh⟩ <;> rw [hh] <;> rfl

/-- Reset preserves heap well-formedness. -/
theorem reset_wf (cfg : Config) (T : Container) (h : Heap) (hwf : h.wf) :
    ((T.reset cfg h).2).wf := by
  rcases reset_heap cfg T h with hh | ⟨x, -, hh⟩ <;> rw [hh]
  · exact hwf
  · intro a ha
    show (if a = x then Option.none else h.mem a) = Option.none
    split
    · rfl
    · exact hwf a ha

end Vx

namespace Vx

/-! ## Claims C10 and C4 -/

/-- C10: self-move-assignment of a bound container destroys the stored
callable and leaves the container empty -- boolean conversion false, null
invocation reference, no-op operation reference, dead storage (and the heap
cell freed when the value lived on the heap).  It is not a no-op. -/
theorem c10_self_move_assign (cfg : Config) (h : Heap) (A : Container)
    (hmov : cfg.movable = true) (hB : IsBound cfg h A)
    (A' : Container) (h' : Heap)
    (hs : selfMoveAssign cfg A h = some (A', h')) :
    A'.toBool = false ∧ A'.call = CallRef.none ∧ A'.actions = Actions.noop
    ∧ A'.data = Cell.junk
    ∧ (∀ a, A.data = Cell.ptr a → h'.read a = Option.none) := by
  cases hB with
  | fptrB f hopt =>
    have hcomp : selfMoveAssign cfg ⟨Cell.junk, CallRef.fptr f, Actions.null⟩ h
        = some (⟨Cell.junk, CallRef.none, Actions.noop⟩, h) := by
      simp [selfMoveAssign, Container.reset, Container.move_into, rawMoveCall,
        Actions.isNull, hmov, hopt]
    rw [hcomp] at hs
    simp only [Option.some.injEq, Prod.mk.injEq] at hs
    obtain ⟨h1, h2⟩ := hs
    subst h1; subst h2
    exact ⟨rfl, rfl, rfl, rfl, fun a ha => by cases ha⟩
  | inlB v he hm hcp =>
    have hcomp : selfMoveAssign cfg
        ⟨Cell.inl v, CallRef.trampoline v.kind, Actions.multi v.kind⟩ h
        = some (⟨Cell.junk, CallRef.none, Actions.noop⟩, h) := by
      simp [selfMoveAssign, Container.reset, Container.move_into, rawMoveCall,
        Actions.isNull, hmov, dtorBranch, he]
    rw [hcomp] at hs
    simp only [Option.some.injEq, Prod.mk.injEq] at hs
    obtain ⟨h1, h2⟩ := hs
    subst h1; subst h2
    exact ⟨rfl, rfl, rfl, rfl, fun a ha => by cases ha⟩
  | heapB v a he hr hm hcp =>
    have hcomp : selfMoveAssign cfg
        ⟨Cell.ptr a, CallRef.trampoline v.kind, Actions.multi v.kind⟩ h
        = some (⟨Cell.junk, CallRef.none, Actions.noop⟩, h.free a) := by
      simp [selfMoveAssign, Container.reset, Container.move_into, rawMoveCall,
        Actions.isNull, hmov, dtorBranch, he]
    rw [hcomp] at hs
    simp only [Option.some.injEq, Prod.mk.injEq] at hs
    obtain ⟨h1, h2⟩ := hs
    subst h1; subst h2
    refine ⟨rfl, rfl, rfl, rfl, fun x hx => ?_⟩
    injection hx with hax
    subst hax
    exact Heap.read_free_self h a

/-- Witness for C10 at a concrete input: an inline-bound container under
the default configuration, self-move-assigned, becomes empty with dead
storage. -/
theorem c10_self_move_assign_witness :
    (Container.mk Cell.junk CallRef.none Actions.noop).toBool = false
    ∧ (Container.mk Cell.junk CallRef.none Actions.noop).call = CallRef.none
    ∧ (Container.mk Cell.junk CallRef.none Actions.noop).actions = Actions.noop
    ∧ (Container.mk Cell.junk CallRef.none Actions.noop).data = Cell.junk
    ∧ (∀ a, a0.data = Cell.ptr a → Heap.emptyHeap.read a = Option.none) :=
  c10_self_move_assign cfgD Heap.emptyHeap a0 rfl
    (IsBound.inlB ⟨K1, 100⟩ rfl (fun _ => rfl) (fun _ => rfl))
    ⟨Cell.junk, CallRef.none, Actions.noop⟩ Heap.emptyHeap rfl

/-- C4: moving a bound container A into B (by move construction, or by move
assignment into a target whose storage does not alias A's heap cell) leaves
A empty/moved-from -- boolean conversion false, null invocation
reference -- and B observably behaves as A did before the move, for every
argument. -/
theorem c4_move_transfers (cfg : Config) (h : Heap) (A : Container)
    (hmov : cfg.movable = true) (hB : IsBound cfg h A) :
    (∀ B A', moveConstruct cfg A = some (B, A') →
       A'.toBool = false ∧ A'.call = CallRef.none ∧
       ∀ arg, observe cfg B h arg = observe cfg A h arg)
    ∧ (∀ T B A' h', (∀ x, T.data = Cell.ptr x → A.data ≠ Cell.ptr x) →
        moveAssign cfg T A h = some (B, A', h') →
        A'.toBool = false ∧ A'.call = CallRef.none ∧
        ∀ arg, observe cfg B h' arg = observe cfg A h arg) := by
  cases hB with
  | fptrB f hopt =>
    constructor
    · intro B A' hs
      have hcomp : moveConstruct cfg ⟨Cell.junk, CallRef.fptr f, Actions.null⟩
          = some (⟨Cell.junk, CallRef.fptr f, Actions.null⟩,
                  ⟨Cell.junk, CallRef.none, Actions.noop⟩) := by
        simp [moveConstruct, Container.move_into, Actions.isNull, hmov, hopt]
      rw [hcomp] at hs
      simp only [Option.some.injEq, Prod.mk.injEq] at hs
      obtain ⟨h1, h2⟩ := hs
      subst h1; subst h2
      exact ⟨rfl, rfl, fun arg => rfl⟩
    · intro T B A' h' hsep hs
      have hcomp : moveAssign cfg T ⟨Cell.junk, CallRef.fptr f, Actions.null⟩ h
          = some (⟨(T.reset cfg h).1.data, CallRef.fptr f, Actions.null⟩,
                  ⟨Cell.junk, CallRef.none, Actions.noop⟩, (T.reset cfg h).2) := by
        simp [moveAssign, Container.move_into, Actions.isNull, hmov, hopt]
      rw [hcomp] at hs
      simp only [Option.some.injEq, Prod.mk.injEq] at hs
      obtain ⟨h1, h2, h3⟩ := hs
      subst h1; subst h2; subst h3
      refine ⟨rfl, rfl, fun arg => ?_⟩
      rw [observe_fptr cfg f _ _ arg hopt, observe_fptr cfg f _ _ arg hopt]
  | inlB v he hm hcp =>
    constructor
    · intro B A' hs
      have hcomp : moveConstruct cfg
          ⟨Cell.inl v, CallRef.trampoline v.kind, Actions.multi v.kind⟩
          = some (⟨Cell.inl v, CallRef.trampoline v.kind, Actions.multi v.kind⟩,
                  ⟨Cell.junk, CallRef.none, Actions.noop⟩) := by
        simp [moveConstruct, Container.move_into, rawMoveCall, moveBranch,
          Actions.isNull, hmov, hm hmov, he]
      rw [hcomp] at hs
      simp only [Option.some.injEq, Prod.mk.injEq] at hs
      obtain ⟨h1, h2⟩ := hs
      subst h1; subst h2
      exact ⟨rfl, rfl, fun arg => rfl⟩
    · intro T B A' h' hsep hs
      have hcomp : moveAssign cfg T
          ⟨Cell.inl v, CallRef.trampoline v.kind, Actions.multi v.kind⟩ h
          = some (⟨Cell.inl v, CallRef.trampoline v.kind, Actions.multi v.kind⟩,
                  ⟨Cell.junk, CallRef.none, Actions.noop⟩, (T.reset cfg h).2) := by
        simp [moveAssign, Container.move_into, rawMoveCall, moveBranch,
          Actions.isNull, hmov, hm hmov, he]
      rw [hcomp] at hs
      simp only [Option.some.injEq, Prod.mk.injEq] at hs
      obtain ⟨h1, h2, h3⟩ := hs
      subst h1; subst h2; subst h3
      refine ⟨rfl, rfl, fun arg => ?_⟩
      rw [observe_inl cfg v _ arg he, observe_inl cfg v _ arg he]
  | heapB v a he hr hm hcp =>
    constructor
    · intro B A' hs
      have hcomp : moveConstruct cfg
          ⟨Cell.ptr a, CallRef.trampoline v.kind, Actions.multi v.kind⟩
          = some (⟨Cell.ptr a, CallRef.trampoline v.kind, Actions.multi v.kind⟩,
                  ⟨Cell.nullp, CallRef.none, Actions.noop⟩) := by
        simp [moveConstruct, Container.move_into, rawMoveCall, moveBranch,
          Actions.isNull, hmov, hm hmov, he]
      rw [hcomp] at hs
      simp only [Option.some.injEq, Prod.mk.injEq] at hs
      obtain ⟨h1, h2⟩ := hs
      subst h1; subst h2
      exact ⟨rfl, rfl, fun arg => rfl⟩
    · intro T B A' h' hsep hs
      have hcomp : moveAssign cfg T
          ⟨Cell.ptr a, CallRef.trampoline v.kind, Actions.multi v.kind⟩ h
          = some (⟨Cell.ptr a, CallRef.trampoline v.kind, Actions.multi v.kind⟩,
                  ⟨Cell.nullp, CallRef.none, Actions.noop⟩, (T.reset cfg h).2) := by
        simp [moveAssign, Container.move_into, rawMoveCall, moveBranch,
          Actions.isNull, hmov, hm hmov, he]
      rw [hcomp] at hs
      simp only [Option.some.injEq, Prod.mk.injEq] at hs
      obtain ⟨h1, h2, h3⟩ := hs
      subst h1; subst h2; subst h3
      refine ⟨rfl, rfl, fun arg => ?_⟩
      have hr' : ((T.reset cfg h).2).read a = some v := by
        rw [reset_read cfg T h a ?_]
        · exact hr
        · intro x hx
          intro hxa
          subst hxa
          exact hsep x hx rfl
      rw [observe_heap cfg v a _ arg he hr', observe_heap cfg v a h arg he hr]

/-- Witness for C4 at a concrete input: move-constructing from an
inline-bound container under the default configuration. -/
theorem c4_move_transfers_witness :
    (Container.mk Cell.junk CallRef.none Actions.noop).toBool = false
    ∧ (Container.mk Cell.junk CallRef.none Actions.noop).call = CallRef.none
    ∧ ∀ arg, observe cfgD a0 Heap.emptyHeap arg
        = observe cfgD a0 Heap.emptyHeap arg :=
  (c4_move_transfers cfgD Heap.emptyHeap a0 rfl
      (IsBound.inlB ⟨K1, 100⟩ rfl (fun _ => rfl) (fun _ => rfl))).1 a0
    ⟨Cell.junk, CallRef.none, Actions.noop⟩ rfl

end Vx

namespace Vx

/-! ## Claim C6 -/

/-- A bound container stays bound when every heap cell backing it is
preserved. -/
theorem isBound_mono (cfg : Config) (h H : Heap) (A : Container)
    (hB : IsBound cfg h A)
    (hkeep : ∀ a v, A.data = Cell.ptr a → h.read a = some v →
        H.read a = some v) :
    IsBound cfg H A := by
  cases hB with
  | fptrB f hopt => exact IsBound.fptrB f hopt
  | inlB v he hm hcpc => exact IsBound.inlB v he hm hcpc
  | heapB v a he hr hm hcpc =>
    exact IsBound.heapB v a he (hkeep a v rfl hr) hm hcpc

/-- Observations of a bound container are unchanged by resetting an
unrelated container. -/
theorem observe_after_reset (cfg : Config) (T : Container) (h : Heap)
    (A : Container) (hB : IsBound cfg h A)
    (hsep : ∀ x, T.data = Cell.ptr x → A.data ≠ Cell.ptr x) (arg : Int) :
    observe cfg A ((T.reset cfg h).2) arg = observe cfg A h arg := by
  cases hB with
  | fptrB f hopt =>
    rw [observe_fptr cfg f _ _ arg hopt, observe_fptr cfg f _ _ arg hopt]
  | inlB v he hm hcpc =>
    rw [observe_inl cfg v _ arg he, observe_inl cfg v _ arg he]
  | heapB v a he hr hm hcpc =>
    have hr' : ((T.reset cfg h).2).read a = some v := by
      rw [reset_read cfg T h a ?_]
      · exact hr
      · intro x hx hxa
        subst hxa
        exact hsep x hx rfl
    rw [observe_heap cfg v a _ arg he hr', observe_heap cfg v a h arg he hr]

/-- Core of the copy claims: duplicating a bound container's storage via
`copy_into` yields an observably identical container, leaves the source's
observations unchanged, and the two are independent -- invoking (and hence
mutating) either one leaves the other's observations intact. -/
theorem copy_into_spec (cfg : Config) (H : Heap) (A : Container) (dest : Cell)
    (hcp : cfg.copyable = true) (hwf : H.wf) (hB : IsBound cfg H A) :
    (∀ arg, observe cfg ⟨(A.copy_into cfg dest H).1, A.call, A.actions⟩
        (A.copy_into cfg dest H).2 arg = observe cfg A H arg)
    ∧ (∀ arg, observe cfg A (A.copy_into cfg dest H).2 arg
        = observe cfg A H arg)
    ∧ (∀ arg t, invoke cfg ⟨(A.copy_into cfg dest H).1, A.call, A.actions⟩
          (A.copy_into cfg dest H).2 arg = .ok t →
        ∀ arg2, observe cfg A t.2.1 arg2 = observe cfg A H arg2)
    ∧ (∀ arg t, invoke cfg A (A.copy_into cfg dest H).2 arg = .ok t →
        ∀ arg2, observe cfg ⟨(A.copy_into cfg dest H).1, A.call, A.actions⟩
            t.2.1 arg2
          = observe cfg ⟨(A.copy_into cfg dest H).1, A.call, A.actions⟩
              (A.copy_into cfg dest H).2 arg2) := by
  cases hB with
  | fptrB f hopt =>
    have hcomp : Container.copy_into cfg
        ⟨Cell.junk, CallRef.fptr f, Actions.null⟩ dest H = (dest, H) := by
      simp [Container.copy_into, Actions.isNull, hopt]
    rw [hcomp]
    refine ⟨fun arg => ?_, fun arg => rfl, fun arg t ht => ?_, fun arg t ht => ?_⟩
    · rw [observe_fptr cfg f dest H arg hopt, observe_fptr cfg f _ H arg hopt]
    · rw [invoke_fptr_eq cfg f dest H arg hopt] at ht
      injection ht with ht'
      subst ht'
      exact fun arg2 => rfl
    · rw [invoke_fptr_eq cfg f Cell.junk H arg hopt] at ht
      injection ht with ht'
      subst ht'
      exact fun arg2 => rfl
  | inlB v he hm hcpc =>
    have hcomp : Container.copy_into cfg
        ⟨Cell.inl v, CallRef.trampoline v.kind, Actions.multi v.kind⟩ dest H
        = (Cell.inl v, H) := by
      simp [Container.copy_into, Actions.isNull, copyBranch, hcp, hcpc hcp, he]
    rw [hcomp]
    refine ⟨fun arg => rfl, fun arg => rfl, fun arg t ht => ?_, fun arg t ht => ?_⟩
    · rw [invoke_inl_eq cfg v H arg he] at ht
      injection ht with ht'
      subst ht'
      exact fun arg2 => rfl
    · rw [invoke_inl_eq cfg v H arg he] at ht
      injection ht with ht'
      subst ht'
      exact fun arg2 => rfl
  | heapB v a he hr hm hcpc =>
    have hne : a ≠ H.next := Nat.ne_of_lt (Heap.lt_next_of_read H hwf a v hr)
    have hcomp : Container.copy_into cfg
        ⟨Cell.ptr a, CallRef.trampoline v.kind, Actions.multi v.kind⟩ dest H
        = (Cell.ptr H.next, (H.alloc v).1) := by
      simp [Container.copy_into, Actions.isNull, copyBranch, hcp, hcpc hcp,
        he, hr, Heap.alloc]
    rw [hcomp]
    have hreadB : ((H.alloc v).1).read H.next = some v := Heap.read_alloc_self H v
    have hreadA : ((H.alloc v).1).read a = some v := by
      rw [Heap.read_alloc_ne H v a hne]; exact hr
    refine ⟨fun arg => ?_, fun arg => ?_, fun arg t ht => ?_, fun arg t ht => ?_⟩
    · rw [observe_heap cfg v H.next _ arg he hreadB,
        observe_heap cfg v a H arg he hr]
    · rw [observe_heap cfg v a _ arg he hreadA,
        observe_heap cfg v a H arg he hr]
    · rw [invoke_heap_eq cfg v H.next _ arg he hreadB] at ht
      injection ht with ht'
      subst ht'
      intro arg2
      have hrd : (((H.alloc v).1).write H.next
          ⟨v.kind, (v.kind.run v.state arg).1⟩).read a = some v := by
        rw [Heap.read_write_ne _ H.next a _ hne]
        exact hreadA
      rw [observe_heap cfg v a _ arg2 he hrd,
        observe_heap cfg v a H arg2 he hr]
    · rw [invoke_heap_eq cfg v a _ arg he hreadA] at ht
      injection ht with ht'
      subst ht'
      intro arg2
      have hrd : (((H.alloc v).1).write a
          ⟨v.kind, (v.kind.run v.state arg).1⟩).read H.next = some v := by
        rw [Heap.read_write_ne _ a H.next _ (Ne.symm hne)]
        exact hreadB
      rw [observe_heap cfg v H.next _ arg2 he hrd,
        observe_heap cfg v H.next _ arg2 he hreadB]

end Vx

namespace Vx

/-- C6: with copy enabled, copy-constructing a bound container (or
copy-assigning it into a target whose storage does not alias the source's
heap cell) produces a container that observably behaves like the original
on every argument, leaves the original's observations unchanged, and the
two are independent: invoking (and thereby mutating the captured state of)
either one does not change the other's observations. -/
theorem c6_copy_independent (cfg : Config) (h : Heap) (A : Container)
    (hcp : cfg.copyable = true) (hwf : h.wf) (hB : IsBound cfg h A) :
    (∀ B h₁, copyConstruct cfg A h = some (B, h₁) →
       (∀ arg, observe cfg B h₁ arg = observe cfg A h arg)
       ∧ (∀ arg, observe cfg A h₁ arg = observe cfg A h arg)
       ∧ (∀ arg t, invoke cfg B h₁ arg = .ok t →
            ∀ arg2, observe cfg A t.2.1 arg2 = observe cfg A h arg2)
       ∧ (∀ arg t, invoke cfg A h₁ arg = .ok t →
            ∀ arg2, observe cfg B t.2.1 arg2 = observe cfg B h₁ arg2))
    ∧ (∀ T B h₁, (∀ x, T.data = Cell.ptr x → A.data ≠ Cell.ptr x) →
        copyAssign cfg T A h = some (B, h₁) →
        (∀ arg, observe cfg B h₁ arg = observe cfg A h arg)
        ∧ (∀ arg, observe cfg A h₁ arg = observe cfg A h arg)
        ∧ (∀ arg t, invoke cfg B h₁ arg = .ok t →
             ∀ arg2, observe cfg A t.2.1 arg2 = observe cfg A h arg2)
        ∧ (∀ arg t, invoke cfg A h₁ arg = .ok t →
             ∀ arg2, observe cfg B t.2.1 arg2 = observe cfg B h₁ arg2)) := by
  constructor
  · intro B h₁ hs
    unfold copyConstruct at hs
    rw [if_pos hcp] at hs
    simp only [Option.some.injEq, Prod.mk.injEq] at hs
    obtain ⟨hsB, hsh⟩ := hs
    subst hsB; subst hsh
    exact copy_into_spec cfg h A Cell.junk hcp hwf hB
  · intro T B h₁ hsep hs
    unfold copyAssign at hs
    rw [if_pos hcp] at hs
    simp only [Option.some.injEq, Prod.mk.injEq] at hs
    obtain ⟨hsB, hsh⟩ := hs
    subst hsB; subst hsh
    have hkeep : ∀ a v, A.data = Cell.ptr a → h.read a = some v →
        ((T.reset cfg h).2).read a = some v := by
      intro a v ha hv
      rw [reset_read cfg T h a ?_]
      · exact hv
      · intro x hx hxa
        subst hxa
        exact hsep x hx ha
    have hB' : IsBound cfg ((T.reset cfg h).2) A := isBound_mono cfg h _ A hB hkeep
    have sp := copy_into_spec cfg ((T.reset cfg h).2) A ((T.reset cfg h).1).data
      hcp (reset_wf cfg T h hwf) hB'
    have hbase : ∀ arg, observe cfg A ((T.reset cfg h).2) arg
        = observe cfg A h arg :=
      fun arg => observe_after_reset cfg T h A hB hsep arg
    refine ⟨fun arg => ?_, fun arg => ?_, fun arg t ht => ?_, ?_⟩
    · rw [sp.1 arg, hbase arg]
    · rw [sp.2.1 arg, hbase arg]
    · intro arg2
      rw [sp.2.2.1 arg t ht arg2, hbase arg2]
    · exact sp.2.2.2

/-- Witness for C6 at a concrete input: copy-constructing an inline-bound
container under the default configuration. -/
theorem c6_copy_independent_witness :
    (∀ arg, observe cfgD a0 Heap.emptyHeap arg
        = observe cfgD a0 Heap.emptyHeap arg)
    ∧ (∀ arg, observe cfgD a0 Heap.emptyHeap arg
        = observe cfgD a0 Heap.emptyHeap arg)
    ∧ (∀ arg t, invoke cfgD a0 Heap.emptyHeap arg = .ok t →
         ∀ arg2, observe cfgD a0 t.2.1 arg2
           = observe cfgD a0 Heap.emptyHeap arg2)
    ∧ (∀ arg t, invoke cfgD a0 Heap.emptyHeap arg = .ok t →
         ∀ arg2, observe cfgD a0 t.2.1 arg2
           = observe cfgD a0 Heap.emptyHeap arg2) :=
  (c6_copy_independent cfgD Heap.emptyHeap a0 rfl (fun _ _ => rfl)
      (IsBound.inlB ⟨K1, 100⟩ rfl (fun _ => rfl) (fun _ => rfl))).1 a0
    Heap.emptyHeap rfl

end Vx

namespace Vx

/-! ## Claims C7 and C1 -/

/-- Shape of a successfully constructed container: trampoline invocation
reference for the stored type, the dispatcher mandated by the
configuration's capabilities, and inline or heap placement by
eligibility. -/
theorem constructFrom_eq (cfg : Config) (v : Val) (h : Heap)
    (c : Container) (h₁ : Heap)
    (hc : constructFrom cfg v h = some (c, h₁)) :
    c.call = CallRef.trampoline v.kind
    ∧ c.actions = (if has_multiple_actions cfg then Actions.multi v.kind
        else Actions.dtorOnly v.kind)
    ∧ ((is_sbo_eligible cfg v.kind = true ∧ c.data = Cell.inl v ∧ h₁ = h)
       ∨ (is_sbo_eligible cfg v.kind = false ∧ c.data = Cell.ptr h.next
          ∧ h₁ = (h.alloc v).1)) := by
  unfold constructFrom at hc
  split at hc
  · exact absurd hc (by simp)
  split at hc
  · exact absurd hc (by simp)
  split at hc
  · exact absurd hc (by simp)
  split at hc
  · exact absurd hc (by simp)
  simp only [Option.some.injEq, Prod.mk.injEq] at hc
  obtain ⟨hcc, hhh⟩ := hc
  subst hcc
  by_cases he : is_sbo_eligible cfg v.kind = true
  · refine ⟨rfl, rfl, Or.inl ⟨he, ?_, ?_⟩⟩
    · simp [he]
    · rw [← hhh]
      simp [he]
  · rw [Bool.not_eq_true] at he
    refine ⟨rfl, rfl, Or.inr ⟨he, ?_, ?_⟩⟩
    · simp [he, Heap.alloc]
    · rw [← hhh]
      simp [he]

/-- Invoking a trampoline-bound inline container through any non-null
operation reference mutates the inline state and returns the run result. -/
theorem invoke_tramp_inl_eq (cfg : Config) (v : Val) (h : Heap) (arg : Int)
    (acts : Actions) (hn : acts.isNull = false)
    (he : is_sbo_eligible cfg v.kind = true) :
    invoke cfg ⟨Cell.inl v, CallRef.trampoline v.kind, acts⟩ h arg
      = .ok (⟨Cell.inl ⟨v.kind, (v.kind.run v.state arg).1⟩,
              CallRef.trampoline v.kind, acts⟩, h,
             (v.kind.run v.state arg).2) := by
  unfold invoke
  simp [CallRef.isNone, hn, he]

/-- Invoking a trampoline-bound heap container through any non-null
operation reference mutates the state at the stored address and returns
the run result. -/
theorem invoke_tramp_heap_eq (cfg : Config) (v : Val) (a : Nat) (h : Heap)
    (arg : Int) (acts : Actions) (hn : acts.isNull = false)
    (he : is_sbo_eligible cfg v.kind = false) (hr : h.read a = some v) :
    invoke cfg ⟨Cell.ptr a, CallRef.trampoline v.kind, acts⟩ h arg
      = .ok (⟨Cell.ptr a, CallRef.trampoline v.kind, acts⟩,
             h.write a ⟨v.kind, (v.kind.run v.state arg).1⟩,
             (v.kind.run v.state arg).2) := by
  unfold invoke
  simp [CallRef.isNone, hn, he, hr]

/-- C7: a container holding a plain function pointer through the fast path
(null operation reference) and a container of the same configuration
holding, through the trampoline path (inline or heap), a callable whose
behavior coincides with that pointer, produce identical observable results
for every argument. -/
theorem c7_fptr_trampoline_equiv (cfg : Config) (f : Int → Int) (K : Kind)
    (s : Int) (h hf : Heap) (hopt : cfg.optimize_for_func_ptrs = true)
    (hrun : ∀ st a, K.run st a = (st, f a))
    (cF : Container) (hF : constructFromFptr cfg f = some cF)
    (cT : Container) (h₁ : Heap)
    (hT : constructFrom cfg ⟨K, s⟩ h = some (cT, h₁)) :
    ∀ arg, observe cfg cF hf arg = observe cfg cT h₁ arg := by
  intro arg
  have hFc : cF = ⟨Cell.junk, CallRef.fptr f, Actions.null⟩ := by
    unfold constructFromFptr at hF
    rw [if_pos hopt] at hF
    exact (Option.some.injEq _ _ ▸ hF).symm
  subst hFc
  obtain ⟨hcall, hacts, hplace⟩ := constructFrom_eq cfg ⟨K, s⟩ h cT h₁ hT
  have hn : cT.actions.isNull = false := by
    rw [hacts]
    split
    · rfl
    · rfl
  rw [observe_fptr cfg f Cell.junk hf arg hopt]
  rcases hplace with ⟨he, hd, hh⟩ | ⟨he, hd, hh⟩
  · have : cT = ⟨Cell.inl ⟨K, s⟩, CallRef.trampoline K, cT.actions⟩ := by
      cases cT
      simp only at hd hcall
      rw [hd, hcall]
    rw [this]
    unfold observe
    rw [invoke_tramp_inl_eq cfg ⟨K, s⟩ h₁ arg cT.actions (this ▸ hn) he]
    rw [hrun s arg]
  · have hrd : h₁.read h.next = some ⟨K, s⟩ := by
      rw [hh]
      exact Heap.read_alloc_self h ⟨K, s⟩
    have : cT = ⟨Cell.ptr h.next, CallRef.trampoline K, cT.actions⟩ := by
      cases cT
      simp only at hd hcall
      rw [hd, hcall]
    rw [this]
    unfold observe
    rw [invoke_tramp_heap_eq cfg ⟨K, s⟩ h.next h₁ arg cT.actions (this ▸ hn)
      he hrd]
    rw [hrun s arg]

/-- Witness for C7 at a concrete input: the fast-path container for the
plain function fun a => a + 1 and the trampoline container for the
stateless callable with the same behavior observe identically at
argument 5. -/
theorem c7_fptr_trampoline_equiv_witness :
    observe cfgD ⟨Cell.junk, CallRef.fptr (fun a => a + 1), Actions.null⟩
        Heap.emptyHeap 5
      = observe cfgD
          ⟨Cell.inl ⟨Kf, 0⟩, CallRef.trampoline Kf, Actions.multi Kf⟩
          Heap.emptyHeap 5 :=
  c7_fptr_trampoline_equiv cfgD (fun a => a + 1) Kf 0 Heap.emptyHeap
    Heap.emptyHeap rfl (fun _ _ => rfl) _ rfl _ _ rfl 5

/-- Witness for C2's amended statement at a concrete input: an
inline-eligible callable constructed under the default configuration,
where the construction left the allocation counter unchanged and the type
is indeed eligible. -/
theorem c2_eligible_no_alloc_witness :
    (Heap.emptyHeap.allocs = Heap.emptyHeap.allocs)
      ↔ is_sbo_eligible cfgD K1 = true :=
  (c2_eligible_no_alloc cfgD ⟨K1, 100⟩ Heap.emptyHeap a0 Heap.emptyHeap rfl).1

/-- C1 evaluation.  Part (i): the spec's own concrete swap scenario
(inline capacity 0, copy disabled, move enabled, two distinct heap-backed
callables) does exchange the operands' observable behavior, because the
pointer transfer `move_into_ptr` is type-agnostic.  Part (ii): with the
same two distinct concrete types stored INLINE (default configuration,
capacity 32), the swapped first operand no longer produces the second's
original result: before the swap the second operand observes 21 at
argument 3, but after the swap the first operand's invocation is undefined
behavior (observation none, the data cell type-confused), because the
third rotation step `actions(dispatch_tag::Move, tmp, &data)` (func.hpp
line 434) relocates the temporary cell with THIS operand's move operation
although the cell holds the OTHER operand's value of a different concrete
type. -/
theorem c1_swap_distinct_inline_types :
    ((constructFrom cfg0 ⟨K1, 100⟩ Heap.emptyHeap).bind fun pa =>
     (constructFrom cfg0 ⟨K2, 7⟩ pa.2).bind fun pb =>
     (swap cfg0 pa.1 pb.1).map fun p =>
       (observe cfg0 p.1 pb.2 3, observe cfg0 p.2 pb.2 3))
      = some (some 21, some 103)
    ∧ ((constructFrom cfgD ⟨K1, 100⟩ Heap.emptyHeap).bind fun pa =>
       (constructFrom cfgD ⟨K2, 7⟩ pa.2).bind fun pb =>
       (swap cfgD pa.1 pb.1).map fun p =>
         (observe cfgD pb.1 pa.2 3, observe cfgD p.1 pb.2 3,
          observe cfgD p.2 pb.2 3))
        = some (some 21, Option.none, some 103) :=
  ⟨rfl, rfl⟩

end Vx
